import Mathlib

/-!
# GridForm core: shallow embedding and verification

Shallow embedding of the pattern-evaluation and compositing core of the
GridForm repository (`src/js/scripts.js`, with the extended noise-variant
block from the richer duplicate implementation in `src/unnamed/part_000`).

JavaScript numbers are modelled by `ℚ` where the source performs only
field arithmetic, comparisons, `Math.floor` and clamping, and by `ℝ`
where the source calls `sin`, `cos`, `sqrt` or `atan2`.  The p5.js
Perlin-noise generator `noise` comes from the p5 library, not from this
repository; it is modelled as an oracle parameter `nf : ℝ → ℝ → ℝ → ℝ` (p5 documents its
range as `[0,1]`, carried as a hypothesis where needed).
-/

namespace GridForm

/-- p5.js `lerp(start, stop, amt) = start + (stop - start) * amt`. -/
def lerpQ (a b t : ℚ) : ℚ := a + (b - a) * t

/-- JavaScript `Math.min` on two numbers. -/
def jsMin (a b : ℚ) : ℚ := if a ≤ b then a else b

/-- JavaScript `Math.max` on two numbers. -/
def jsMax (a b : ℚ) : ℚ := if b ≤ a then a else b

/-- p5.js `constrain(n, low, high) = Math.max(Math.min(n, high), low)`. -/
def constrainQ (n low high : ℚ) : ℚ := jsMax (jsMin n high) low

/-- p5.js `constrain` on integers (used for the glyph index). -/
def constrainZ (n low high : ℤ) : ℤ := max (min n high) low

/-- p5.js `map(value, start1, stop1, start2, stop2)` (no clamping). -/
def p5map (value start1 stop1 start2 stop2 : ℚ) : ℚ :=
  start2 + (stop2 - start2) * ((value - start1) / (stop1 - start1))

/-! ## Compositor: scalar blend (`blendValues` in `scripts.js`) -/

/-- Source function `blendValues(value1, value2, mode, amount)` from `scripts.js`:
dampens `value2` toward 0.5 by `amount`, then combines according to the
blend mode; unrecognized modes return `value1` unchanged. -/
def blendValues (value1 value2 : ℚ) (mode : String) (amount : ℚ) : ℚ :=
  let v2 := lerpQ (1/2) value2 amount
  if mode = "add" then constrainQ (value1 + v2 - 1/2) 0 1
  else if mode = "multiply" then value1 * v2
  else if mode = "overlay" then
    if value1 < 1/2 then 2 * value1 * v2 else 1 - 2 * (1 - value1) * (1 - v2)
  else if mode = "difference" then |value1 - v2|
  else if mode = "screen" then 1 - (1 - value1) * (1 - v2)
  else value1

/-! ## Colors: `hexToRgb` and `blendColors` -/

/-- An RGB triple as produced by `hexToRgb` (integer channels 0..255). -/
structure RGB where
  r : ℤ
  g : ℤ
  b : ℤ
deriving DecidableEq, Repr

/-- Value of one hex digit, case-insensitive (the `[a-f\d]` character
class of the `hexToRgb` regex with the `i` flag). -/
def hexDigitVal (c : Char) : Option ℕ :=
  if '0' ≤ c ∧ c ≤ '9' then some (c.toNat - 48)
  else if 'a' ≤ c ∧ c ≤ 'f' then some (c.toNat - 87)
  else if 'A' ≤ c ∧ c ≤ 'F' then some (c.toNat - 55)
  else none

/-- The regex `/^#?([a-f\d]{2})([a-f\d]{2})([a-f\d]{2})$/i` of
`hexToRgb`: an optional leading `#` followed by exactly six hex digits,
parsed pairwise with `parseInt(_, 16)`. -/
def parseHexColor (s : String) : Option RGB :=
  match (if s.data.head? = some '#' then s.data.tail else s.data) with
  | [c1, c2, c3, c4, c5, c6] => do
      let h1 ← hexDigitVal c1
      let h2 ← hexDigitVal c2
      let h3 ← hexDigitVal c3
      let h4 ← hexDigitVal c4
      let h5 ← hexDigitVal c5
      let h6 ← hexDigitVal c6
      pure ⟨(16 * h1 + h2 : ℕ), (16 * h3 + h4 : ℕ), (16 * h5 + h6 : ℕ)⟩
  | _ => none

/-- Source function `hexToRgb(hex)` from `scripts.js`: parse the 6-digit hex color,
defaulting to white `{r:255, g:255, b:255}` when the regex fails. -/
def hexToRgb (s : String) : RGB := (parseHexColor s).getD ⟨255, 255, 255⟩

/-- One channel of `blendColors` before the final `Math.floor`:
`a` and `b` are the channel values of `color1` and `color2`, and
`localBlend = value1 * value2 * amount`. -/
def blendColorChannel (mode : String) (a b : ℤ) (localBlend : ℚ) : ℚ :=
  if mode = "add" then constrainQ ((a : ℚ) + (b : ℚ) * localBlend) 0 255
  else if mode = "multiply" then lerpQ (a : ℚ) ((a : ℚ) * (b : ℚ) / 255) localBlend
  else if mode = "overlay" then
    lerpQ (a : ℚ)
      (if a < 128 then 2 * (a : ℚ) * (b : ℚ) / 255
       else 255 - 2 * (255 - (a : ℚ)) * (255 - (b : ℚ)) / 255) localBlend
  else if mode = "difference" then lerpQ (a : ℚ) |(a : ℚ) - (b : ℚ)| localBlend
  else if mode = "screen" then
    lerpQ (a : ℚ) (255 - (255 - (a : ℚ)) * (255 - (b : ℚ)) / 255) localBlend
  else lerpQ (a : ℚ) (b : ℚ) localBlend

/-- Source function `blendColors` from `scripts.js`, acting on the parsed RGB records:
computes `localBlend = value1 * value2 * amount`, blends per channel,
and emits the `rgb(Math.floor(r), ...)` output channels. -/
def blendColors (color1 color2 : RGB) (mode : String) (value1 value2 amount : ℚ) :
    ℤ × ℤ × ℤ :=
  let localBlend := value1 * value2 * amount
  (⌊blendColorChannel mode color1.r color2.r localBlend⌋,
   ⌊blendColorChannel mode color1.g color2.g localBlend⌋,
   ⌊blendColorChannel mode color1.b color2.b localBlend⌋)

/-- Variant of `blendColors` taking the hex-string arguments of the source. -/
def blendColorsHex (color1Hex color2Hex : String) (mode : String)
    (value1 value2 amount : ℚ) : ℤ × ℤ × ℤ :=
  blendColors (hexToRgb color1Hex) (hexToRgb color2Hex) mode value1 value2 amount

/-! ## GlyphMapper (the `charIndex` computation in `draw`) -/

/-- The index `charIndex = constrain(Math.floor(map(finalValue, 0, 1, 0, ramp.length - 1)),
0, ramp.length - 1)` from the draw loop in `scripts.js`. -/
def charIndex (value : ℚ) (len : ℕ) : ℤ :=
  constrainZ ⌊p5map value 0 1 0 ((len : ℚ) - 1)⌋ 0 ((len : ℤ) - 1)

/-- The lookup `selectedRamp[charIndex]`: the glyph chosen for a value. -/
def mapToChar (value : ℚ) (ramp : List Char) : Char :=
  ramp.getD (charIndex value ramp.length).toNat ' '

/-! ## InteractionOverlay: click-effect lifecycle -/

/-- A click effect as pushed by `mousePressed` in `scripts.js`. -/
structure ClickEffect where
  x : ℚ
  y : ℚ
  life : ℚ
  maxLife : ℚ
  strength : ℚ
  radius : ℚ
deriving DecidableEq, Repr

/-- The effect pushed by `mousePressed`: position with
`life = maxLife = 3.0` and the configured strength and radius. -/
def mkClickEffect (x y strength radius : ℚ) : ClickEffect :=
  ⟨x, y, 3, 3, strength, radius⟩

/-- Source function `updateInteractiveEffects` from `scripts.js`: the life of every effect is
decremented by the frame delta 0.016 and exactly the effects whose new
life is `> 0` are kept. -/
def updateClickEffects (effects : List ClickEffect) : List ClickEffect :=
  (effects.map (fun e => { e with life := e.life - 16/1000 })).filter
    (fun e => 0 < e.life)

/-! ## StatefulPatternSources: cellular automaton -/

/-- The 40×30 cellular grid, indexed `cellularGrid[y][x]`. -/
def CellGrid := ℕ → ℕ → Bool

/-- The JS array read `cellularGrid[ny][nx]` with its bounds guard
`nx >= 0 && nx < 40 && ny >= 0 && ny < 30`: out-of-bounds reads are
dead. -/
def cellAlive (g : CellGrid) (nx ny : ℤ) : Bool :=
  if 0 ≤ nx ∧ nx < 40 ∧ 0 ≤ ny ∧ ny < 30 then g ny.toNat nx.toNat else false

/-- The neighbor offsets `(dx, dy)` visited by the double loop of
`updateCellular` (skipping `(0,0)`). -/
def neighborOffsets : List (ℤ × ℤ) :=
  [(-1, -1), (0, -1), (1, -1), (-1, 0), (1, 0), (-1, 1), (0, 1), (1, 1)]

/-- The 8-neighbor live count of `updateCellular`. -/
def countNeighbors (g : CellGrid) (x y : ℕ) : ℕ :=
  (neighborOffsets.filter (fun d => cellAlive g ((x : ℤ) + d.1) ((y : ℤ) + d.2))).length

/-- Source function `updateCellular` from `scripts.js`: one synchronous Game-of-Life
generation computed from the old grid into a fresh grid. -/
def updateCellular (g : CellGrid) : CellGrid := fun y x =>
  let neighbors := countNeighbors g x y
  if g y x then neighbors == 2 || neighbors == 3 else neighbors == 3

/-! ## StatefulPatternSources: Voronoi swarm -/

/-- A Voronoi swarm point `{x, y, vx, vy}`. -/
structure VPoint where
  x : ℚ
  y : ℚ
  vx : ℚ
  vy : ℚ
deriving DecidableEq, Repr

/-- The per-point position update at the top of `getVoronoiValue`:
advance by the velocity, flip the velocity sign at the `[0,1]` bounds,
clamp the position. -/
def advancePoint (p : VPoint) : VPoint :=
  let x := p.x + p.vx
  let y := p.y + p.vy
  let vx := if x ≤ 0 ∨ 1 ≤ x then -p.vx else p.vx
  let vy := if y ≤ 0 ∨ 1 ≤ y then -p.vy else p.vy
  { x := constrainQ x 0 1, y := constrainQ y 0 1, vx := vx, vy := vy }

/-- The whole-swarm update performed by every `getVoronoiValue` call. -/
def advanceSwarm (pts : List VPoint) : List VPoint := pts.map advancePoint

/-! ## ScalarFieldLibrary: real-valued pattern evaluation

The remaining source functions call `sin`, `cos`, `sqrt` and `atan2`,
so they are embedded over `ℝ` (classically, hence `noncomputable`). -/

noncomputable section Real

open scoped Real

/-- p5.js `dist(x1, y1, x2, y2)`: Euclidean distance. -/
noncomputable def distR (x1 y1 x2 y2 : ℝ) : ℝ :=
  Real.sqrt ((x2 - x1) ^ 2 + (y2 - y1) ^ 2)

/-- p5.js `atan2(y, x)` (the argument of the complex number `x + y i`). -/
noncomputable def atan2 (y x : ℝ) : ℝ := Complex.arg ⟨x, y⟩

/-- JavaScript `ToInt32`: wrap an integer into `[-2^31, 2^31)`. -/
def toInt32 (n : ℤ) : ℤ :=
  let m := n % 4294967296
  if m < 2147483648 then m else m - 4294967296

/-- JavaScript 32-bit `^` on integers: both operands are converted by
`ToInt32`, xored on their twos-complement bit patterns, and the result
is read back as a signed 32-bit integer. -/
def jsXor (a b : ℤ) : ℤ :=
  toInt32 ((Nat.xor (a % 4294967296).toNat (b % 4294967296).toNat : ℕ) : ℤ)

/-- The loop of `mandelbrotIteration(cx, cy, maxIter)` unfolded as fuel recursion on
the remaining iterations: escape when `zx*zx + zy*zy > 4`, otherwise
`z ← z² + c`; the returned count is the loop index at escape, or
`maxIter` when the loop completes. -/
noncomputable def mandelLoop (cx cy : ℝ) : ℝ → ℝ → ℕ → ℕ
  | _, _, 0 => 0
  | zx, zy, n + 1 =>
    if zx * zx + zy * zy > 4 then 0
    else mandelLoop cx cy (zx * zx - zy * zy + cx) (2 * zx * zy + cy) n + 1

/-- Source function `mandelbrotIteration` from `scripts.js` (`z` starts at 0). -/
noncomputable def mandelbrotIteration (cx cy : ℝ) (maxIter : ℕ) : ℕ :=
  mandelLoop cx cy 0 0 maxIter

/-- Source function `juliaIteration(zx, zy, c, maxIter)` from `scripts.js` (same
recurrence, starting from the queried point with a fixed `c`). -/
noncomputable def juliaIteration (zx zy : ℝ) (c : ℝ × ℝ) (maxIter : ℕ) : ℕ :=
  mandelLoop c.1 c.2 zx zy maxIter

/-- The `(minDist, secondMinDist)` scan of `getVoronoiValue`, starting
from `Infinity` (modelled by `⊤` in `WithTop ℝ`). -/
noncomputable def voronoiMinDists (ds : List ℝ) : WithTop ℝ × WithTop ℝ :=
  ds.foldl
    (fun m d =>
      if (d : WithTop ℝ) < m.1 then ((d : WithTop ℝ), m.1)
      else if (d : WithTop ℝ) < m.2 then (m.1, (d : WithTop ℝ)) else m)
    (⊤, ⊤)

/-- Source function `getVoronoiValue(x, y, timeOffset)` from `scripts.js`: advances
every swarm point (mutating the stored swarm), then returns
`((secondMinDist - minDist) * 10 + sin(timeOffset * 100)) * 2 - 1`
together with the advanced swarm. -/
noncomputable def getVoronoiValue (x y timeOffset : ℝ) (pts : List VPoint) :
    ℝ × List VPoint :=
  let pts' := advanceSwarm pts
  let dists := pts'.map (fun p => distR x y (p.x : ℝ) (p.y : ℝ))
  let m := voronoiMinDists dists
  (((m.2.untop' 0 - m.1.untop' 0) * 10 + Real.sin (timeOffset * 100)) * 2 - 1, pts')

/-- The state owned by the two stateful pattern sources. -/
structure GFState where
  cellular : CellGrid
  voronoi : List VPoint

/-- A pattern-slot configuration (`settings.pattern1` / `pattern2`):
the fields read by `getPatternValue`. -/
structure Pattern where
  type : String
  speed : ℝ
  scale : ℝ
  noiseVariant : String

/-- Case `waves` of `getPatternValue`. -/
noncomputable def wavesValue (nx ny time speed : ℝ) : ℝ :=
  (Real.sin (nx * (2 * π) * 5 + time * speed * 100) +
    Real.sin (ny * (2 * π) * 3 + time * speed * 80)) / 2

/-- Case `ripples` of `getPatternValue`. -/
noncomputable def ripplesValue (nx ny time speed : ℝ) : ℝ :=
  Real.sin (distR nx ny 0.5 0.5 * (2 * π) * 10 - time * speed * 200)

/-- Case `noise` of `getPatternValue` with the noise-variant switch of
the extended implementation (unknown variants fall back to simplex,
matching both the inner `default:` branch and the `simplex` fallback guard). -/
noncomputable def noiseValue (nf : ℝ → ℝ → ℝ → ℝ)
    (nx ny time speed scale : ℝ) (variant : String) : ℝ :=
  if variant = "simplex" then
    nf (nx * scale * 100) (ny * scale * 100) (time * speed * 10) * 2 - 1
  else if variant = "turbulence" then
    ((List.range 4).foldl
      (fun acc i =>
        acc + (1/2 : ℝ) ^ i *
          nf (nx * scale * 100 * 2 ^ i) (ny * scale * 100 * 2 ^ i)
            (time * speed * 10 * 2 ^ i)) 0) / 1.875 * 2 - 1
  else if variant = "ridged" then
    1 - |nf (nx * scale * 100) (ny * scale * 100) (time * speed * 10) * 2 - 1| * 2 - 1
  else
    nf (nx * scale * 100) (ny * scale * 100) (time * speed * 10) * 2 - 1

/-- Case `spiral` of `getPatternValue`. -/
noncomputable def spiralValue (nx ny time speed : ℝ) : ℝ :=
  Real.sin (atan2 (ny - 0.5) (nx - 0.5) * 3 + distR nx ny 0.5 0.5 * 20 +
    time * speed * 100)

/-- Case `checkerboard` of `getPatternValue` (JavaScript `%` is the
truncating remainder `Int.tmod`). -/
noncomputable def checkerboardValue (nx ny time speed scale : ℝ) : ℝ :=
  ((Int.tmod (⌊nx * scale * 100⌋ + ⌊ny * scale * 100⌋ + ⌊time * speed * 100⌋) 2 :
    ℤ) : ℝ) * 2 - 1

/-- Case `stripes` of `getPatternValue`. -/
noncomputable def stripesValue (nx ny time speed scale : ℝ) : ℝ :=
  Real.sin ((nx + ny) * scale * 200 + time * speed * 100)

/-- Case `plasma` of `getPatternValue`. -/
noncomputable def plasmaValue (nx ny time speed : ℝ) : ℝ :=
  (Real.sin (nx * 16 + time * speed * 80) +
    Real.sin (ny * 8 + time * speed * 60) +
    Real.sin ((nx + ny) * 16 + time * speed * 40) +
    Real.sin (Real.sqrt (nx * nx + ny * ny) * 8 + time * speed * 120)) / 4

/-- Case `mandelbrot` of `getPatternValue`. -/
noncomputable def mandelbrotValue (nx ny time speed : ℝ) : ℝ :=
  let zx := (nx - 0.5) * 4
  let zy := (ny - 0.5) * 4
  let cx := zx + Real.sin (time * speed * 50) * 0.3
  let cy := zy + Real.cos (time * speed * 30) * 0.3
  (mandelbrotIteration cx cy 20 : ℝ) / 20

/-- Case `julia` of `getPatternValue`. -/
noncomputable def juliaValue (nx ny time speed : ℝ) : ℝ :=
  let jx := (nx - 0.5) * 4
  let jy := (ny - 0.5) * 4
  let juliaC := (Real.sin (time * speed * 100) * 0.8,
                 Real.cos (time * speed * 70) * 0.8)
  (juliaIteration jx jy juliaC 20 : ℝ) / 20

/-- Case `tunnel` of `getPatternValue`. -/
noncomputable def tunnelValue (nx ny time speed : ℝ) : ℝ :=
  Real.sin (atan2 (ny - 0.5) (nx - 0.5) * 8 + time * speed * 100) *
    Real.sin (1 / (distR nx ny 0.5 0.5 + 0.1) + time * speed * 50)

/-- Case `mosaic` of `getPatternValue` (`^` is the JavaScript 32-bit
xor and `%` the truncating remainder). -/
noncomputable def mosaicValue (nx ny time speed scale : ℝ) : ℝ :=
  let mosaicX := ⌊nx * scale * 200⌋
  let mosaicY := ⌊ny * scale * 200⌋
  let mosaicHash := Int.tmod (jsXor (mosaicX * 73856093) (mosaicY * 19349663)) 1000000
  ((mosaicHash : ℝ) / 500000 - 1) + Real.sin (time * speed * 100) * 0.3

/-- The switch body of `getPatternValue` (`scripts.js`, with the
noise-variant block of the extended implementation): the raw, not yet
normalized scalar, together with the possibly updated stateful-source
state.  Kinds fall through the chain exactly like the `switch` of the source;
an unrecognized kind leaves `value = 0`. -/
noncomputable def rawPatternValue (nf : ℝ → ℝ → ℝ → ℝ) (cols rows : ℕ)
    (x y : ℕ) (p : Pattern) (time : ℝ) (st : GFState) : ℝ × GFState :=
  let normalizedX : ℝ := (x : ℝ) / (cols : ℝ)
  let normalizedY : ℝ := (y : ℝ) / (rows : ℝ)
  if p.type = "waves" then (wavesValue normalizedX normalizedY time p.speed, st)
  else if p.type = "ripples" then
    (ripplesValue normalizedX normalizedY time p.speed, st)
  else if p.type = "noise" then
    (noiseValue nf normalizedX normalizedY time p.speed p.scale p.noiseVariant, st)
  else if p.type = "spiral" then
    (spiralValue normalizedX normalizedY time p.speed, st)
  else if p.type = "checkerboard" then
    (checkerboardValue normalizedX normalizedY time p.speed p.scale, st)
  else if p.type = "stripes" then
    (stripesValue normalizedX normalizedY time p.speed p.scale, st)
  else if p.type = "plasma" then
    (plasmaValue normalizedX normalizedY time p.speed, st)
  else if p.type = "mandelbrot" then
    (mandelbrotValue normalizedX normalizedY time p.speed, st)
  else if p.type = "julia" then
    (juliaValue normalizedX normalizedY time p.speed, st)
  else if p.type = "cellular" then
    let g := if Int.tmod ⌊time * p.speed * 100⌋ 30 = 0 then updateCellular st.cellular
             else st.cellular
    let cellX := ⌊normalizedX * 40⌋
    let cellY := ⌊normalizedY * 30⌋
    ((if cellAlive g cellX cellY then (1 : ℝ) else -1), { st with cellular := g })
  else if p.type = "voronoi" then
    let r := getVoronoiValue normalizedX normalizedY (time * p.speed) st.voronoi
    (r.1, { st with voronoi := r.2 })
  else if p.type = "tunnel" then
    (tunnelValue normalizedX normalizedY time p.speed, st)
  else if p.type = "mosaic" then
    (mosaicValue normalizedX normalizedY time p.speed p.scale, st)
  else
    (0, st)

/-- Source function `getPatternValue(x, y, pattern, time)` from `scripts.js`: the raw
kind-specific scalar followed by the `(value + 1) / 2` normalization. -/
noncomputable def getPatternValue (nf : ℝ → ℝ → ℝ → ℝ) (cols rows : ℕ)
    (x y : ℕ) (p : Pattern) (time : ℝ) (st : GFState) : ℝ × GFState :=
  let r := rawPatternValue nf cols rows x y p time st
  ((r.1 + 1) / 2, r.2)

end Real

/-! ## Theorems -/

/-- C2: for all `v1, v2` in `[0,1]`, the scalar blend with mode
`multiply` and amount `0` first dampens `v2` to `lerp(0.5, v2, 0) = 0.5`
and therefore returns exactly `0.5 * v1`:
`blendValues(v1, v2, multiply, 0) = v1 / 2`. -/
theorem blendValues_multiply_zero (v1 v2 : ℚ)
    (_h1 : 0 ≤ v1) (_h2 : v1 ≤ 1) (_h3 : 0 ≤ v2) (_h4 : v2 ≤ 1) :
    blendValues v1 v2 "multiply" 0 = v1 / 2 ∧ lerpQ (1/2) v2 0 = 1/2 := by
  constructor
  · simp [blendValues, lerpQ]
    ring
  · simp [lerpQ]

theorem blendValues_multiply_zero_witness :
    blendValues (1/3) (2/7) "multiply" 0 = (1/3) / 2 ∧ lerpQ (1/2) (2/7) 0 = 1/2 :=
  blendValues_multiply_zero (1/3) (2/7) (by norm_num) (by norm_num)
    (by norm_num) (by norm_num)

/-- C5: glyph mapping is total and in-bounds.  For every non-empty ramp
and every input value (also outside `[0,1]`), the clamped index
`constrain(floor(value * (len - 1)), 0, len - 1)` is a valid ramp index;
value `0` selects `ramp[0]`, value `1` selects `ramp[len - 1]`, and a
ramp of length 1 always yields its single character. -/
theorem mapToChar_total (ramp : List Char) (v : ℚ) (hr : ramp ≠ []) :
    (0 ≤ charIndex v ramp.length ∧ (charIndex v ramp.length).toNat < ramp.length) ∧
    mapToChar 0 ramp = ramp.head hr ∧
    mapToChar 1 ramp = ramp.getLast hr ∧
    (ramp.length = 1 → mapToChar v ramp = ramp.head hr) := by
  have hL : 1 ≤ ramp.length := List.length_pos.mpr hr
  have hL' : (0 : ℤ) ≤ (ramp.length : ℤ) - 1 := by omega
  have hmap : ∀ w : ℚ, p5map w 0 1 0 ((ramp.length : ℚ) - 1) = ((ramp.length : ℚ) - 1) * w := by
    intro w; simp [p5map]
  have hin : ∀ w : ℚ, 0 ≤ charIndex w ramp.length ∧
      (charIndex w ramp.length).toNat < ramp.length := by
    intro w
    have h0 : 0 ≤ charIndex w ramp.length := le_max_right _ _
    have h1 : charIndex w ramp.length ≤ (ramp.length : ℤ) - 1 :=
      max_le (min_le_right _ _) hL'
    exact ⟨h0, by omega⟩
  have hhead : ∀ w : ℚ, charIndex w ramp.length = 0 → mapToChar w ramp = ramp.head hr := by
    intro w hw
    rw [mapToChar, hw, Int.toNat_zero, List.getD_eq_getElem ramp ' ' (by omega)]
    exact List.getElem_zero (by omega)
  refine ⟨hin v, ?_, ?_, ?_⟩
  · -- value 0 selects ramp[0]
    refine hhead 0 ?_
    simp only [charIndex, hmap, constrainZ, mul_zero, Int.floor_zero]
    omega
  · -- value 1 selects the last ramp entry
    have hflr : ⌊((ramp.length : ℚ) - 1) * 1⌋ = (ramp.length : ℤ) - 1 := by
      rw [mul_one, show ((ramp.length : ℚ) - 1) = (((ramp.length : ℤ) - 1 : ℤ) : ℚ) by
        push_cast; ring, Int.floor_intCast]
    have hci : charIndex 1 ramp.length = (ramp.length : ℤ) - 1 := by
      simp only [charIndex, hmap, constrainZ, hflr]
      omega
    have hlt : ramp.length - 1 < ramp.length := by omega
    rw [mapToChar, hci, List.getLast_eq_getElem ramp hr,
      show ((ramp.length : ℤ) - 1).toNat = ramp.length - 1 by omega]
    exact List.getD_eq_getElem ramp ' ' hlt
  · -- singleton ramp
    intro h1
    refine hhead v ?_
    have h1' : ((ramp.length : ℚ) - 1) = 0 := by rw [h1]; norm_num
    simp only [charIndex, hmap, constrainZ, h1', zero_mul, Int.floor_zero, h1]
    omega

theorem mapToChar_total_witness : mapToChar 0 ['a', 'b', 'c'] = 'a' :=
  (mapToChar_total ['a', 'b', 'c'] (5/2) (by decide)).2.1

/-- C6 counterexample: with `c1 = 0`, `c2 = 255`, `v1 = v2 = 1/2`,
`amount = 1`, the clamp value is `63.75` but the channel emitted by
`blendColors` is `Math.floor(63.75) = 63`, so the final per-channel
output does not equal `clamp(c1 + c2*v1*v2, 0, 255)` exactly. -/
theorem blendColors_add_floor_counterexample :
    ¬ ((((blendColors ⟨0, 0, 0⟩ ⟨255, 255, 255⟩ "add" (1/2) (1/2) 1).1 : ℤ) : ℚ) =
      constrainQ ((0 : ℚ) + 255 * ((1/2) * (1/2))) 0 255) := by
  have h : (blendColors ⟨0, 0, 0⟩ ⟨255, 255, 255⟩ "add" (1/2) (1/2) 1).1 = 63 := by
    simp [blendColors, blendColorChannel, constrainQ, jsMin, jsMax]
    norm_num
  rw [h]
  simp [constrainQ, jsMin, jsMax]
  norm_num

/-- C6 (amended): for blend mode `add` with `amount = 1`, each
pre-floor channel equals `clamp(c1 + c2 * v1 * v2, 0, 255)` exactly, and
the final per-channel output of `blendColors` is the `Math.floor` of
that clamp. -/
theorem blendColors_add_amount_one (c1 c2 : RGB) (v1 v2 : ℚ)
    (_hv1 : 0 ≤ v1) (_hv1' : v1 ≤ 1) (_hv2 : 0 ≤ v2) (_hv2' : v2 ≤ 1)
    (_hc1 : 0 ≤ c1.r ∧ c1.r ≤ 255) (_hc2 : 0 ≤ c2.r ∧ c2.r ≤ 255) :
    blendColorChannel "add" c1.r c2.r (v1 * v2 * 1) =
      constrainQ ((c1.r : ℚ) + (c2.r : ℚ) * (v1 * v2)) 0 255 ∧
    blendColors c1 c2 "add" v1 v2 1 =
      (⌊constrainQ ((c1.r : ℚ) + (c2.r : ℚ) * (v1 * v2)) 0 255⌋,
       ⌊constrainQ ((c1.g : ℚ) + (c2.g : ℚ) * (v1 * v2)) 0 255⌋,
       ⌊constrainQ ((c1.b : ℚ) + (c2.b : ℚ) * (v1 * v2)) 0 255⌋) := by
  constructor
  · simp [blendColorChannel, mul_one]
  · simp [blendColors, blendColorChannel, mul_one]

theorem blendColors_add_amount_one_witness :
    blendColorChannel "add" (⟨10, 20, 30⟩ : RGB).r (⟨100, 110, 120⟩ : RGB).r
        ((1/2) * (1/3) * 1) =
      constrainQ ((10 : ℚ) + (100 : ℚ) * ((1/2) * (1/3))) 0 255 :=
  (blendColors_add_amount_one ⟨10, 20, 30⟩ ⟨100, 110, 120⟩ (1/2) (1/3)
    (by norm_num) (by norm_num) (by norm_num) (by norm_num)
    (by norm_num) (by norm_num)).1

/-- C7: the core blend and color functions are total with silent
fallbacks: for any mode outside the five known modes, `blendValues`
returns `v1` unchanged and `blendColors` falls back to the per-channel
linear interpolation `lerp(c1, c2, v1*v2*amount)`; any string that does
not parse as a 6-digit hex color maps to white. -/
theorem blend_default_fallbacks (mode : String)
    (hm : mode ∉ ["add", "multiply", "overlay", "difference", "screen"])
    (v1 v2 amount : ℚ) (c1 c2 : RGB) (s : String)
    (hs : parseHexColor s = none) :
    blendValues v1 v2 mode amount = v1 ∧
    blendColors c1 c2 mode v1 v2 amount =
      (⌊lerpQ (c1.r : ℚ) (c2.r : ℚ) (v1 * v2 * amount)⌋,
       ⌊lerpQ (c1.g : ℚ) (c2.g : ℚ) (v1 * v2 * amount)⌋,
       ⌊lerpQ (c1.b : ℚ) (c2.b : ℚ) (v1 * v2 * amount)⌋) ∧
    hexToRgb s = ⟨255, 255, 255⟩ := by
  simp only [List.mem_cons, List.not_mem_nil, or_false, not_or] at hm
  obtain ⟨h1, h2, h3, h4, h5⟩ := hm
  refine ⟨?_, ?_, ?_⟩
  · simp [blendValues, h1, h2, h3, h4, h5]
  · simp [blendColors, blendColorChannel, h1, h2, h3, h4, h5]
  · simp [hexToRgb, hs]

theorem blend_default_fallbacks_witness :
    hexToRgb "zzz" = ⟨255, 255, 255⟩ :=
  (blend_default_fallbacks "xor" (by decide) 0 0 0 ⟨0, 0, 0⟩ ⟨0, 0, 0⟩
    "zzz" (by decide)).2.2

/-- C3: the cellular automaton step is a synchronous Game-of-Life
transition computed from the old 40×30 grid into a fresh grid: a cell
with exactly 3 live neighbors is live after `updateCellular`; a live
cell with exactly 1 live neighbor is dead; a live cell with 2 or 3 live
neighbors stays live; every other cell is dead; an all-dead grid maps to
an all-dead grid; out-of-bounds neighbors count as dead. -/
theorem updateCellular_gameOfLife (g : CellGrid) (x y : ℕ)
    (_hx : x < 40) (_hy : y < 30) :
    (countNeighbors g x y = 3 → updateCellular g y x = true) ∧
    (g y x = true → countNeighbors g x y = 1 → updateCellular g y x = false) ∧
    (g y x = true → (countNeighbors g x y = 2 ∨ countNeighbors g x y = 3) →
      updateCellular g y x = true) ∧
    (countNeighbors g x y ≠ 3 → ¬(g y x = true ∧ countNeighbors g x y = 2) →
      updateCellular g y x = false) ∧
    ((∀ j i, g j i = false) → updateCellular g y x = false) ∧
    (∀ (g' : CellGrid) (nx ny : ℤ), ¬(0 ≤ nx ∧ nx < 40 ∧ 0 ≤ ny ∧ ny < 30) →
      cellAlive g' nx ny = false) := by
  refine ⟨?_, ?_, ?_, ?_, ?_, ?_⟩
  · intro h3
    cases hg : g y x <;> simp [updateCellular, hg, h3]
  · intro hg h1
    simp [updateCellular, hg, h1]
  · intro hg h23
    rcases h23 with h | h <;> simp [updateCellular, hg, h]
  · intro hn3 hn2
    cases hg : g y x with
    | false => simp [updateCellular, hg, hn3]
    | true =>
      have : countNeighbors g x y ≠ 2 := fun h => hn2 ⟨hg, h⟩
      simp [updateCellular, hg, hn3, this]
  · intro hall
    have hcount : countNeighbors g x y = 0 := by
      simp [countNeighbors, cellAlive, hall, neighborOffsets]
    simp [updateCellular, hall, hcount]
  · intro g' nx ny hout
    simp [cellAlive, hout]

theorem updateCellular_gameOfLife_witness :
    updateCellular (fun j i => decide ((j, i) ∈ [(0, 1), (1, 0), (1, 1)])) 0 0 = true :=
  (updateCellular_gameOfLife (fun j i => decide ((j, i) ∈ [(0, 1), (1, 0), (1, 1)]))
    0 0 (by decide) (by decide)).1 (by decide)

/-- The position clamp at the end of `advancePoint` keeps both
coordinates in `[0,1]` unconditionally. -/
theorem advancePoint_bounds (p : VPoint) :
    0 ≤ (advancePoint p).x ∧ (advancePoint p).x ≤ 1 ∧
    0 ≤ (advancePoint p).y ∧ (advancePoint p).y ≤ 1 := by
  have h : ∀ v : ℚ, 0 ≤ constrainQ v 0 1 ∧ constrainQ v 0 1 ≤ 1 := by
    intro v
    simp only [constrainQ, jsMin, jsMax]
    split_ifs <;> constructor <;> linarith
  exact ⟨(h _).1, (h _).2, (h _).1, (h _).2⟩

/-- The sequence of swarm states produced by a sequence of
`getVoronoiValue` calls with query arguments `qs` (each call advances
the swarm, whatever the query point is). -/
noncomputable def voronoiStates (qs : ℕ → ℝ × ℝ × ℝ) (pts : List VPoint) :
    ℕ → List VPoint
  | 0 => pts
  | n + 1 =>
    (getVoronoiValue (qs n).1 (qs n).2.1 (qs n).2.2 (voronoiStates qs pts n)).2

/-- C4: for every initial Voronoi swarm whose points start with
coordinates in `[0,1]`, after any number `n` of `getVoronoiValue` calls
(each advancing every point by its velocity, reflecting the velocity
sign at the `[0,1]` boundary and clamping the position) the coordinates
of every point remain in `[0,1]`. -/
theorem voronoiSwarm_stays_bounded (qs : ℕ → ℝ × ℝ × ℝ) (pts : List VPoint)
    (h : ∀ p ∈ pts, 0 ≤ p.x ∧ p.x ≤ 1 ∧ 0 ≤ p.y ∧ p.y ≤ 1)
    (n : ℕ) (p : VPoint) (hp : p ∈ voronoiStates qs pts n) :
    0 ≤ p.x ∧ p.x ≤ 1 ∧ 0 ≤ p.y ∧ p.y ≤ 1 := by
  cases n with
  | zero => exact h p hp
  | succ k =>
    have hstep : voronoiStates qs pts (k + 1) =
        advanceSwarm (voronoiStates qs pts k) := rfl
    rw [hstep] at hp
    obtain ⟨q, _hq, rfl⟩ := List.mem_map.mp hp
    exact advancePoint_bounds q

theorem voronoiSwarm_stays_bounded_witness :
    0 ≤ (⟨1/2, 1/2, 1/4, 1/4⟩ : VPoint).x ∧ (⟨1/2, 1/2, 1/4, 1/4⟩ : VPoint).x ≤ 1 ∧
    0 ≤ (⟨1/2, 1/2, 1/4, 1/4⟩ : VPoint).y ∧ (⟨1/2, 1/2, 1/4, 1/4⟩ : VPoint).y ≤ 1 :=
  voronoiSwarm_stays_bounded (fun _ => (0, 0, 0)) [⟨0, 0, 1/4, 1/4⟩]
    (by intro p hp; rw [List.mem_singleton] at hp; subst hp; norm_num)
    2 ⟨1/2, 1/2, 1/4, 1/4⟩
    (show (⟨1/2, 1/2, 1/4, 1/4⟩ : VPoint) ∈
        advanceSwarm (advanceSwarm [⟨0, 0, 1/4, 1/4⟩]) by
      norm_num [advanceSwarm, advancePoint, constrainQ, jsMin, jsMax])

/-- After `k` updates, a single still-live effect has lost `k` times the
frame delta of life. -/
theorem updateClickEffects_iterate_single (e : ClickEffect) :
    ∀ k : ℕ, 0 < e.life - (16/1000) * k →
      updateClickEffects^[k] [e] = [{ e with life := e.life - (16/1000) * k }]
  | 0, _ => by simp
  | k + 1, h => by
    have hk : 0 < e.life - (16/1000) * k := by
      push_cast at h ⊢
      nlinarith [show ((k : ℚ)) < ((k : ℚ) + 1) by linarith]
    have hx : (0 : ℚ) < e.life - 16/1000 * (k : ℚ) - 16/1000 := by
      push_cast at h; linarith
    rw [Function.iterate_succ_apply', updateClickEffects_iterate_single e k hk]
    simp only [updateClickEffects, List.map_cons, List.map_nil, List.filter_cons,
      List.filter_nil]
    rw [if_pos (decide_eq_true hx)]
    have harith : e.life - 16/1000 * (k : ℚ) - 16/1000 =
        e.life - 16/1000 * (((k + 1 : ℕ) : ℚ)) := by
      push_cast; ring
    rw [harith]

/-- C8: each `updateInteractiveEffects` pass decrements the life of
every active click effect by the frame delta 0.016 and removes exactly the
effects whose life is then `≤ 0`, so after every update no active
effect has life `≤ 0`; an effect created with `life = maxLife = 3.0` is
removed once the number of frame-decrements reaches `3.0 / 0.016`. -/
theorem clickEffect_lifecycle (effects : List ClickEffect) (e : ClickEffect)
    (he : e ∈ updateClickEffects effects) (x y strength radius : ℚ)
    (n : ℕ) (hn : (3 : ℚ) / (16/1000) ≤ (n : ℚ)) :
    0 < e.life ∧ updateClickEffects^[n] [mkClickEffect x y strength radius] = [] := by
  constructor
  · rw [updateClickEffects] at he
    have h2 := (List.mem_filter.mp he).2
    simpa using h2
  · have h188 : 188 ≤ n := by
      have h187 : (187 : ℚ) < (n : ℚ) := lt_of_lt_of_le (by norm_num) hn
      exact_mod_cast Nat.succ_le_of_lt (by exact_mod_cast h187)
    obtain ⟨k, rfl⟩ : ∃ k, n = k + 188 := ⟨n - 188, by omega⟩
    rw [Function.iterate_add_apply]
    have h0 : updateClickEffects^[188] [mkClickEffect x y strength radius] = [] := by
      rw [show (188 : ℕ) = 187 + 1 from rfl, Function.iterate_succ_apply',
        updateClickEffects_iterate_single (mkClickEffect x y strength radius) 187
          (by norm_num [mkClickEffect])]
      simp only [updateClickEffects, List.map_cons, List.map_nil, List.filter_cons,
        List.filter_nil, mkClickEffect]
      norm_num
    rw [h0]
    exact Function.iterate_fixed rfl k

theorem clickEffect_lifecycle_witness :
    0 < (⟨0, 0, 1 - 16/1000, 1, 1, 1⟩ : ClickEffect).life ∧
    updateClickEffects^[188] [mkClickEffect 0 0 1 1] = [] :=
  clickEffect_lifecycle [⟨0, 0, 1, 1, 1, 1⟩] ⟨0, 0, 1 - 16/1000, 1, 1, 1⟩
    (by norm_num [updateClickEffects]) 0 0 1 1 188 (by norm_num)

/-! ## Range lemmas for the scalar-field library -/

theorem sin_mem_Icc (a : ℝ) : -1 ≤ Real.sin a ∧ Real.sin a ≤ 1 :=
  ⟨Real.neg_one_le_sin a, Real.sin_le_one a⟩

theorem avg2_sin_mem (a b : ℝ) :
    -1 ≤ (Real.sin a + Real.sin b) / 2 ∧ (Real.sin a + Real.sin b) / 2 ≤ 1 := by
  obtain ⟨h1, h2⟩ := sin_mem_Icc a
  obtain ⟨h3, h4⟩ := sin_mem_Icc b
  constructor <;> linarith

theorem avg4_sin_mem (a b c d : ℝ) :
    -1 ≤ (Real.sin a + Real.sin b + Real.sin c + Real.sin d) / 4 ∧
    (Real.sin a + Real.sin b + Real.sin c + Real.sin d) / 4 ≤ 1 := by
  obtain ⟨h1, h2⟩ := sin_mem_Icc a
  obtain ⟨h3, h4⟩ := sin_mem_Icc b
  obtain ⟨h5, h6⟩ := sin_mem_Icc c
  obtain ⟨h7, h8⟩ := sin_mem_Icc d
  constructor <;> linarith

theorem sin_mul_sin_mem (a b : ℝ) :
    -1 ≤ Real.sin a * Real.sin b ∧ Real.sin a * Real.sin b ≤ 1 := by
  obtain ⟨h1, h2⟩ := sin_mem_Icc a
  obtain ⟨h3, h4⟩ := sin_mem_Icc b
  constructor <;> nlinarith

theorem noiseval_mem (u : ℝ) (h : 0 ≤ u ∧ u ≤ 1) :
    -1 ≤ u * 2 - 1 ∧ u * 2 - 1 ≤ 1 := by
  constructor <;> linarith [h.1, h.2]

theorem turb_mem (u0 u1 u2 u3 : ℝ) (h0 : 0 ≤ u0 ∧ u0 ≤ 1) (h1 : 0 ≤ u1 ∧ u1 ≤ 1)
    (h2 : 0 ≤ u2 ∧ u2 ≤ 1) (h3 : 0 ≤ u3 ∧ u3 ≤ 1) :
    -1 ≤ (0 + (1/2 : ℝ) ^ (0 : ℕ) * u0 + (1/2) ^ (1 : ℕ) * u1 +
        (1/2) ^ (2 : ℕ) * u2 + (1/2) ^ (3 : ℕ) * u3) / 1.875 * 2 - 1 ∧
    (0 + (1/2 : ℝ) ^ (0 : ℕ) * u0 + (1/2) ^ (1 : ℕ) * u1 +
        (1/2) ^ (2 : ℕ) * u2 + (1/2) ^ (3 : ℕ) * u3) / 1.875 * 2 - 1 ≤ 1 := by
  norm_num
  constructor <;> nlinarith [h0.1, h0.2, h1.1, h1.2, h2.1, h2.2, h3.1, h3.2]

theorem checker_mem (a b c : ℤ) (ha : 0 ≤ a) (hb : 0 ≤ b) (hc : 0 ≤ c) :
    -1 ≤ ((Int.tmod (a + b + c) 2 : ℤ) : ℝ) * 2 - 1 ∧
    ((Int.tmod (a + b + c) 2 : ℤ) : ℝ) * 2 - 1 ≤ 1 := by
  have habc : (0 : ℤ) ≤ a + b + c := by omega
  have h1 : Int.tmod (a + b + c) 2 = (a + b + c) % 2 :=
    Int.tmod_eq_emod habc (by norm_num)
  have h2 : (0 : ℤ) ≤ (a + b + c) % 2 := Int.emod_nonneg _ (by norm_num)
  have h3 : (a + b + c) % 2 < 2 := Int.emod_lt_of_pos _ (by norm_num)
  have h01 : (a + b + c) % 2 = 0 ∨ (a + b + c) % 2 = 1 := by omega
  rw [h1]
  rcases h01 with h | h <;> rw [h] <;> norm_num

theorem mandelLoop_le (cx cy : ℝ) : ∀ (n : ℕ) (zx zy : ℝ),
    mandelLoop cx cy zx zy n ≤ n
  | 0, _, _ => by simp [mandelLoop]
  | n + 1, zx, zy => by
    rw [mandelLoop]
    split
    · omega
    · exact Nat.succ_le_succ (mandelLoop_le cx cy n _ _)

theorem mandelbrot_raw_mem01 (cx cy : ℝ) :
    0 ≤ (mandelbrotIteration cx cy 20 : ℝ) / 20 ∧
    (mandelbrotIteration cx cy 20 : ℝ) / 20 ≤ 1 := by
  have h := mandelLoop_le cx cy 20 0 0
  constructor
  · exact div_nonneg (Nat.cast_nonneg _) (by norm_num)
  · rw [div_le_one (by norm_num)]
    exact_mod_cast h

theorem julia_raw_mem01 (zx zy : ℝ) (c : ℝ × ℝ) :
    0 ≤ (juliaIteration zx zy c 20 : ℝ) / 20 ∧
    (juliaIteration zx zy c 20 : ℝ) / 20 ≤ 1 := by
  have h := mandelLoop_le c.1 c.2 20 zx zy
  constructor
  · exact div_nonneg (Nat.cast_nonneg _) (by norm_num)
  · rw [div_le_one (by norm_num)]
    exact_mod_cast h

theorem mandelbrot_raw_mem (cx cy : ℝ) :
    -1 ≤ (mandelbrotIteration cx cy 20 : ℝ) / 20 ∧
    (mandelbrotIteration cx cy 20 : ℝ) / 20 ≤ 1 := by
  obtain ⟨h1, h2⟩ := mandelbrot_raw_mem01 cx cy
  exact ⟨by linarith, h2⟩

theorem julia_raw_mem (zx zy : ℝ) (c : ℝ × ℝ) :
    -1 ≤ (juliaIteration zx zy c 20 : ℝ) / 20 ∧
    (juliaIteration zx zy c 20 : ℝ) / 20 ≤ 1 := by
  obtain ⟨h1, h2⟩ := julia_raw_mem01 zx zy c
  exact ⟨by linarith, h2⟩

theorem wavesValue_mem (nx ny t sp : ℝ) :
    -1 ≤ wavesValue nx ny t sp ∧ wavesValue nx ny t sp ≤ 1 := avg2_sin_mem _ _

theorem ripplesValue_mem (nx ny t sp : ℝ) :
    -1 ≤ ripplesValue nx ny t sp ∧ ripplesValue nx ny t sp ≤ 1 := sin_mem_Icc _

theorem spiralValue_mem (nx ny t sp : ℝ) :
    -1 ≤ spiralValue nx ny t sp ∧ spiralValue nx ny t sp ≤ 1 := sin_mem_Icc _

theorem stripesValue_mem (nx ny t sp sc : ℝ) :
    -1 ≤ stripesValue nx ny t sp sc ∧ stripesValue nx ny t sp sc ≤ 1 := sin_mem_Icc _

theorem plasmaValue_mem (nx ny t sp : ℝ) :
    -1 ≤ plasmaValue nx ny t sp ∧ plasmaValue nx ny t sp ≤ 1 := avg4_sin_mem _ _ _ _

theorem tunnelValue_mem (nx ny t sp : ℝ) :
    -1 ≤ tunnelValue nx ny t sp ∧ tunnelValue nx ny t sp ≤ 1 := sin_mul_sin_mem _ _

theorem mandelbrotValue_mem (nx ny t sp : ℝ) :
    -1 ≤ mandelbrotValue nx ny t sp ∧ mandelbrotValue nx ny t sp ≤ 1 :=
  mandelbrot_raw_mem _ _

theorem juliaValue_mem (nx ny t sp : ℝ) :
    -1 ≤ juliaValue nx ny t sp ∧ juliaValue nx ny t sp ≤ 1 := julia_raw_mem _ _ _

theorem noiseValue_mem (nf : ℝ → ℝ → ℝ → ℝ)
    (hnf : ∀ a b c, 0 ≤ nf a b c ∧ nf a b c ≤ 1)
    (nx ny t sp sc : ℝ) (variant : String) (hv : variant ≠ "ridged") :
    -1 ≤ noiseValue nf nx ny t sp sc variant ∧
    noiseValue nf nx ny t sp sc variant ≤ 1 := by
  unfold noiseValue
  by_cases h1 : variant = "simplex"
  · rw [if_pos h1]
    exact noiseval_mem _ (hnf _ _ _)
  rw [if_neg h1]
  by_cases h2 : variant = "turbulence"
  · rw [if_pos h2, show List.range 4 = [0, 1, 2, 3] from rfl]
    simp only [List.foldl_cons, List.foldl_nil]
    exact turb_mem _ _ _ _ (hnf _ _ _) (hnf _ _ _) (hnf _ _ _) (hnf _ _ _)
  rw [if_neg h2, if_neg hv]
  exact noiseval_mem _ (hnf _ _ _)

theorem checkerboardValue_mem (nx ny t sp sc : ℝ) (hnx : 0 ≤ nx) (hny : 0 ≤ ny)
    (ht : 0 ≤ t) (hsp : 0 ≤ sp) (hsc : 0 ≤ sc) :
    -1 ≤ checkerboardValue nx ny t sp sc ∧ checkerboardValue nx ny t sp sc ≤ 1 := by
  unfold checkerboardValue
  refine checker_mem _ _ _ (Int.floor_nonneg.mpr ?_) (Int.floor_nonneg.mpr ?_)
    (Int.floor_nonneg.mpr ?_)
  · exact mul_nonneg (mul_nonneg hnx hsc) (by norm_num)
  · exact mul_nonneg (mul_nonneg hny hsc) (by norm_num)
  · exact mul_nonneg (mul_nonneg ht hsp) (by norm_num)

/-- Bounds for the raw scalar of every kind other than `mosaic`,
`voronoi` and the ridged noise variant. -/
theorem rawPatternValue_mem (nf : ℝ → ℝ → ℝ → ℝ)
    (hnf : ∀ a b c, 0 ≤ nf a b c ∧ nf a b c ≤ 1)
    (cols rows x y : ℕ) (p : Pattern) (t : ℝ) (st : GFState)
    (ht : 0 ≤ t) (hspeed : 0 ≤ p.speed) (hscale : 0 ≤ p.scale)
    (hmosaic : p.type ≠ "mosaic") (hvoronoi : p.type ≠ "voronoi")
    (hridged : p.type = "noise" → p.noiseVariant ≠ "ridged") :
    -1 ≤ (rawPatternValue nf cols rows x y p t st).1 ∧
    (rawPatternValue nf cols rows x y p t st).1 ≤ 1 := by
  have hnx : (0 : ℝ) ≤ (x : ℝ) / (cols : ℝ) :=
    div_nonneg (Nat.cast_nonneg x) (Nat.cast_nonneg cols)
  have hny : (0 : ℝ) ≤ (y : ℝ) / (rows : ℝ) :=
    div_nonneg (Nat.cast_nonneg y) (Nat.cast_nonneg rows)
  unfold rawPatternValue
  dsimp only
  by_cases h1 : p.type = "waves"
  · rw [if_pos h1]; exact wavesValue_mem _ _ _ _
  rw [if_neg h1]
  by_cases h2 : p.type = "ripples"
  · rw [if_pos h2]; exact ripplesValue_mem _ _ _ _
  rw [if_neg h2]
  by_cases h3 : p.type = "noise"
  · rw [if_pos h3]; exact noiseValue_mem nf hnf _ _ _ _ _ _ (hridged h3)
  rw [if_neg h3]
  by_cases h4 : p.type = "spiral"
  · rw [if_pos h4]; exact spiralValue_mem _ _ _ _
  rw [if_neg h4]
  by_cases h5 : p.type = "checkerboard"
  · rw [if_pos h5]; exact checkerboardValue_mem _ _ _ _ _ hnx hny ht hspeed hscale
  rw [if_neg h5]
  by_cases h6 : p.type = "stripes"
  · rw [if_pos h6]; exact stripesValue_mem _ _ _ _ _
  rw [if_neg h6]
  by_cases h7 : p.type = "plasma"
  · rw [if_pos h7]; exact plasmaValue_mem _ _ _ _
  rw [if_neg h7]
  by_cases h8 : p.type = "mandelbrot"
  · rw [if_pos h8]; exact mandelbrotValue_mem _ _ _ _
  rw [if_neg h8]
  by_cases h9 : p.type = "julia"
  · rw [if_pos h9]; exact juliaValue_mem _ _ _ _
  rw [if_neg h9]
  by_cases h10 : p.type = "cellular"
  · rw [if_pos h10]
    dsimp only
    split_ifs <;> norm_num
  rw [if_neg h10]
  by_cases h11 : p.type = "voronoi"
  · exact absurd h11 hvoronoi
  rw [if_neg h11]
  by_cases h12 : p.type = "tunnel"
  · rw [if_pos h12]; exact tunnelValue_mem _ _ _ _
  rw [if_neg h12]
  by_cases h13 : p.type = "mosaic"
  · exact absurd h13 hmosaic
  rw [if_neg h13]
  norm_num

/-- C1 (amended): for every pattern kind other than `mosaic` and
`voronoi`, with a noise variant other than `ridged`, every grid cell
and every nonnegative time (with nonnegative speed and scale and the
noise oracle in `[0,1]`), the normalized value returned by
`getPatternValue` lies in `[0,1]`. -/
theorem getPatternValue_in_unit (nf : ℝ → ℝ → ℝ → ℝ)
    (hnf : ∀ a b c, 0 ≤ nf a b c ∧ nf a b c ≤ 1)
    (cols rows x y : ℕ) (_hx : x < cols) (_hy : y < rows)
    (p : Pattern) (t : ℝ) (st : GFState)
    (ht : 0 ≤ t) (hspeed : 0 ≤ p.speed) (hscale : 0 ≤ p.scale)
    (hmosaic : p.type ≠ "mosaic") (hvoronoi : p.type ≠ "voronoi")
    (hridged : p.type = "noise" → p.noiseVariant ≠ "ridged") :
    0 ≤ (getPatternValue nf cols rows x y p t st).1 ∧
    (getPatternValue nf cols rows x y p t st).1 ≤ 1 := by
  obtain ⟨h1, h2⟩ := rawPatternValue_mem nf hnf cols rows x y p t st ht hspeed
    hscale hmosaic hvoronoi hridged
  unfold getPatternValue
  dsimp only
  constructor <;> linarith

theorem getPatternValue_in_unit_witness :
    0 ≤ (getPatternValue (fun _ _ _ => 0) 1 1 0 0 ⟨"waves", 0, 0, "simplex"⟩ 0
      ⟨fun _ _ => false, []⟩).1 ∧
    (getPatternValue (fun _ _ _ => 0) 1 1 0 0 ⟨"waves", 0, 0, "simplex"⟩ 0
      ⟨fun _ _ => false, []⟩).1 ≤ 1 :=
  getPatternValue_in_unit (fun _ _ _ => 0) (fun _ _ _ => by norm_num)
    1 1 0 0 (by norm_num) (by norm_num) ⟨"waves", 0, 0, "simplex"⟩ 0
    ⟨fun _ _ => false, []⟩ le_rfl le_rfl le_rfl (by decide) (by decide)
    (fun h => absurd h (by decide))

/-- C1 counterexample: for the `mosaic` kind the claim fails.  On a 2×2
grid at cell `(1,0)` with `scale = 0.3`, `speed = 0.01` and `time = 0`,
the JavaScript 32-bit hash `(30 * 73856093) ^ 0` wraps to
`-2079284506`, whose remainder `% 1000000` is `-284506`, so the raw
mosaic scalar is `-284506/500000 - 1 < -1` and the normalized value
returned by `getPatternValue` is negative, outside `[0,1]`. -/
theorem getPatternValue_mosaic_out_of_range :
    (getPatternValue (fun _ _ _ => 0) 2 2 1 0
      ⟨"mosaic", 1/100, 3/10, "simplex"⟩ 0 ⟨fun _ _ => false, []⟩).1 < 0 := by
  unfold getPatternValue rawPatternValue
  dsimp only
  simp only [String.reduceEq, reduceIte]
  unfold mosaicValue
  dsimp only
  norm_num
  rw [show (jsXor 2215682790 0).tmod 1000000 = -284506 from by decide]
  norm_num

/-- The pattern kinds whose evaluation never touches the stateful
sources (all kinds except `cellular` and `voronoi`). -/
def statelessKinds : List String :=
  ["waves", "ripples", "noise", "spiral", "checkerboard", "stripes", "plasma",
   "mandelbrot", "julia", "tunnel", "mosaic"]

/-- C9: for every stateless pattern kind, `getPatternValue` leaves the
stateful-source state unchanged, so two calls with identical inputs
(the second running on the state left by the first) return identical
values; `cellular` and `voronoi` are not in `statelessKinds`. -/
theorem getPatternValue_stateless_pure (nf : ℝ → ℝ → ℝ → ℝ) (cols rows x y : ℕ)
    (p : Pattern) (t : ℝ) (st : GFState) (h : p.type ∈ statelessKinds) :
    (getPatternValue nf cols rows x y p t st).2 = st ∧
    (getPatternValue nf cols rows x y p t
        ((getPatternValue nf cols rows x y p t st).2)).1 =
      (getPatternValue nf cols rows x y p t st).1 := by
  have hst : (rawPatternValue nf cols rows x y p t st).2 = st := by
    simp only [statelessKinds, List.mem_cons, List.not_mem_nil, or_false] at h
    unfold rawPatternValue
    dsimp only
    rcases h with h | h | h | h | h | h | h | h | h | h | h <;> rw [h] <;> simp
  have hst' : (getPatternValue nf cols rows x y p t st).2 = st := hst
  exact ⟨hst', by rw [hst']⟩

theorem getPatternValue_stateless_pure_witness :
    ((getPatternValue (fun _ _ _ => 0) 1 1 0 0 ⟨"waves", 0, 0, "simplex"⟩ 0
        ⟨fun _ _ => false, []⟩).2 = ⟨fun _ _ => false, []⟩) ∧
    (getPatternValue (fun _ _ _ => 0) 1 1 0 0 ⟨"waves", 0, 0, "simplex"⟩ 0
        ((getPatternValue (fun _ _ _ => 0) 1 1 0 0 ⟨"waves", 0, 0, "simplex"⟩ 0
          ⟨fun _ _ => false, []⟩).2)).1 =
      (getPatternValue (fun _ _ _ => 0) 1 1 0 0 ⟨"waves", 0, 0, "simplex"⟩ 0
        ⟨fun _ _ => false, []⟩).1 :=
  getPatternValue_stateless_pure (fun _ _ _ => 0) 1 1 0 0
    ⟨"waves", 0, 0, "simplex"⟩ 0 ⟨fun _ _ => false, []⟩ (by decide)

theorem mandelbrotValue_mem01 (nx ny t sp : ℝ) :
    0 ≤ mandelbrotValue nx ny t sp ∧ mandelbrotValue nx ny t sp ≤ 1 := by
  unfold mandelbrotValue
  exact mandelbrot_raw_mem01 _ _

theorem juliaValue_mem01 (nx ny t sp : ℝ) :
    0 ≤ juliaValue nx ny t sp ∧ juliaValue nx ny t sp ≤ 1 := by
  unfold juliaValue
  exact julia_raw_mem01 _ _ _

/-- C10: for the `mandelbrot` and `julia` kinds the escape-time count
lies in `[0, maxIter]`, so the raw scalar `count / maxIter` lies in
`[0,1]` and the normalized value returned by `getPatternValue` lies in
`[1/2, 1]` — these kinds never produce a value in `[0, 1/2)`. -/
theorem getPatternValue_fractal_upper_half (nf : ℝ → ℝ → ℝ → ℝ)
    (cols rows x y : ℕ) (p : Pattern) (t : ℝ) (st : GFState)
    (h : p.type = "mandelbrot" ∨ p.type = "julia") :
    1/2 ≤ (getPatternValue nf cols rows x y p t st).1 ∧
    (getPatternValue nf cols rows x y p t st).1 ≤ 1 := by
  have hr : 0 ≤ (rawPatternValue nf cols rows x y p t st).1 ∧
      (rawPatternValue nf cols rows x y p t st).1 ≤ 1 := by
    unfold rawPatternValue
    dsimp only
    rcases h with h | h <;> rw [h] <;> simp only [String.reduceEq, reduceIte]
    · exact mandelbrotValue_mem01 _ _ _ _
    · exact juliaValue_mem01 _ _ _ _
  unfold getPatternValue
  dsimp only
  constructor <;> linarith [hr.1, hr.2]

theorem getPatternValue_fractal_upper_half_witness :
    1/2 ≤ (getPatternValue (fun _ _ _ => 0) 1 1 0 0
      ⟨"mandelbrot", 0, 0, "simplex"⟩ 0 ⟨fun _ _ => false, []⟩).1 ∧
    (getPatternValue (fun _ _ _ => 0) 1 1 0 0
      ⟨"mandelbrot", 0, 0, "simplex"⟩ 0 ⟨fun _ _ => false, []⟩).1 ≤ 1 :=
  getPatternValue_fractal_upper_half (fun _ _ _ => 0) 1 1 0 0
    ⟨"mandelbrot", 0, 0, "simplex"⟩ 0 ⟨fun _ _ => false, []⟩ (Or.inl rfl)

end GridForm
